import Mathlib

/-!
Shallow embedding of the `dirsync` synchronizer (`src/sync.py`) together with
proofs about its behaviour.

Modelling conventions:
* Filesystem paths are POSIX-style: an absolute flag plus a list of name
  components.  POSIX paths have no drive, so the Windows extended-length
  prefix normalisation in `copy_symlink` (src/sync.py lines 250-251) is the
  identity here and is not represented.
* Filesystem objects are finite trees of regular files (identity, metadata
  signature, content), directories (identity, named children), symlinks
  (identity, raw target) and irregular ("funny") objects such as sockets or
  FIFOs.
* Every recursive procedure takes an explicit fuel argument, so every
  definition is a plain structural recursion that the kernel can evaluate;
  running out of fuel is reported as a distinguished error value, and
  termination facts are stated as fuel-sufficiency theorems.
* The embedding fixes `follow_symlinks = false` wherever classifying a path
  would otherwise have to dereference a symlink (symlink resolution is not
  modelled): `is_dir`/`is_file` report `false` on a symlink node regardless
  of the follow flag, which is exact for the `follow_symlinks = false`
  configurations all theorems below are stated about.
* Python exceptions are modelled with `Except`: exceptions raised inside a
  per-entry body are caught by the corresponding `except` clause of
  `sync_dirs`, while `sys.exit` (which raises `SystemExit`, not an
  `Exception`) propagates to the top.
-/

namespace DirSync

/-- POSIX-style path: absolute flag plus name components
(`pathlib.PurePosixPath`). -/
structure FPath where
  absolute : Bool
  parts : List String
deriving DecidableEq, Repr

/-- `Path.joinpath` with a single name component. -/
def FPath.join (p : FPath) (n : String) : FPath :=
  ⟨p.absolute, p.parts ++ [n]⟩

/-- `Path.is_relative_to`: same kind of path and the candidate root's
components are a prefix of ours. -/
def FPath.isRelTo (p q : FPath) : Bool :=
  (p.absolute == q.absolute) && q.parts.isPrefixOf p.parts

/-- The components of `p.relative_to q` (defined when `q` is a prefix). -/
def FPath.relPartsTo (p q : FPath) : List String :=
  p.parts.drop q.parts.length

/-- Target of the link created at the destination by
`Synchronizer.copy_symlink` (src/sync.py lines 248-256): the raw link target
is read without resolving; if it is absolute and lies under the source root,
the link is recreated with the source-root prefix swapped for the destination
root (`dest.symlink_to`), otherwise the link is copied literally
(`shutil.copy2(..., follow_symlinks=False)`), leaving the target unchanged. -/
def copy_symlink_target (sourceRoot destRoot linkTarget : FPath) : FPath :=
  if linkTarget.absolute && linkTarget.isRelTo sourceRoot then
    ⟨destRoot.absolute, destRoot.parts ++ linkTarget.relPartsTo sourceRoot⟩
  else
    linkTarget

/-! ## Filesystem objects -/

/-- A filesystem object: a regular file (identity, metadata signature
abstracting size+mtime, content), a directory (identity, named children), a
symlink (identity, raw target), or an irregular object (socket, FIFO, device,
junction-like reparse point) that is none of the three. -/
inductive FSNode where
  | file (ino : Nat) (meta : Nat) (content : String) : FSNode
  | dir (ino : Nat) (entries : List (String × FSNode)) : FSNode
  | symlink (ino : Nat) (target : FPath) : FSNode
  | funny (ino : Nat) : FSNode

/-- Directory contents: association list of child name to child object. -/
abbrev Entries := List (String × FSNode)

/-- `Path.is_dir(follow_symlinks=b)`.  Symlink resolution is not modelled:
a symlink node reports `false` regardless of the flag, which is exact for
`follow_symlinks=false`. -/
def FSNode.is_dir (_follow : Bool) : FSNode → Bool
  | .dir _ _ => true
  | _ => false

/-- `Path.is_file(follow_symlinks=b)`.  Symlink resolution is not modelled
(exact for `follow_symlinks=false`). -/
def FSNode.is_file (_follow : Bool) : FSNode → Bool
  | .file _ _ _ => true
  | _ => false

/-- `Path.is_symlink()`. -/
def FSNode.is_symlink : FSNode → Bool
  | .symlink _ _ => true
  | _ => false

/-- `Path.is_junction()`: always false on POSIX; the irregular constructor
also covers junction-like objects, which classify irregular either way. -/
def FSNode.is_junction : FSNode → Bool
  | _ => false

/-- `Synchronizer.is_funny` (src/sync.py lines 277-281): irregular iff a
junction, or none of directory / regular file / symlink. -/
def is_funny (follow : Bool) (n : FSNode) : Bool :=
  n.is_junction || !(n.is_dir follow || n.is_file follow || n.is_symlink)

/-- `Path.stat(follow_symlinks=b).st_ino`.  Symlink targets are not
resolved; on a symlink node this returns the link's own identity, which is
exact for `follow_symlinks=false` (`lstat`).  The `follow_symlinks=true`
call in `copy_tree` (line 204) only ever reaches directory nodes in the
configurations considered here. -/
def FSNode.statIno (_follow : Bool) : FSNode → Nat
  | .file i _ _ => i
  | .dir i _ => i
  | .symlink i _ => i
  | .funny i => i

/-- Name-keyed lookup in directory contents. -/
def lookupE : Entries → String → Option FSNode
  | [], _ => none
  | (m, v) :: l, n => if m = n then some v else lookupE l n

/-- Replace the object stored under an existing name (names are unique in a
directory listing, so the first occurrence is the entry). -/
def updateE : Entries → String → FSNode → Entries
  | [], _, _ => []
  | (m, v) :: l, n, w => if m = n then (m, w) :: l else (m, v) :: updateE l n w

/-- Remove a name from directory contents (`unlink` / `rmtree`). -/
def removeE (l : Entries) (n : String) : Entries :=
  l.filter (fun e => e.1 ≠ n)

/-- Add a fresh name to directory contents. -/
def insertE (l : Entries) (n : String) (v : FSNode) : Entries :=
  l ++ [(n, v)]

/-! ## Directory Comparator

Modelled from the spec: the Directory Comparator (section 4.2) — the source
delegates to the standard library's `filecmp.dircmp` (src/sync.py line 263),
which is not part of this repository.  Per the spec, both listings are split
by name: names on one side only, common names that are both directories
(paired recursively via `subdirs`), common regular files differing by
metadata signature (shallow) or by content (`diff_files`), and common names
of mismatched or irregular type (`common_funny`).  Common regular files that
compare equal, and common symlink pairs (which classification must not
dereference when `follow_symlinks=false`), receive no action and appear in
no set. -/

/-- Names of a directory listing (`left_list` / `right_list`). -/
def namesOf (l : Entries) : List String :=
  l.map Prod.fst

/-- Names present in the source only (`compared.left_only`). -/
def left_only (src dest : Entries) : List String :=
  (namesOf src).filter (fun n => ¬ n ∈ namesOf dest)

/-- Names present in the destination only (`compared.right_only`). -/
def right_only (src dest : Entries) : List String :=
  (namesOf dest).filter (fun n => ¬ n ∈ namesOf src)

/-- Names present on both sides. -/
def commonNames (src dest : Entries) : List String :=
  (namesOf src).filter (fun n => n ∈ namesOf dest)

/-- Common names where both sides are directories (`compared.subdirs` keys). -/
def common_dirs (src dest : Entries) : List String :=
  (commonNames src dest).filter (fun n =>
    match lookupE src n, lookupE dest n with
    | some (.dir _ _), some (.dir _ _) => true
    | _, _ => false)

/-- `filecmp` equality of two regular files: by metadata signature when
shallow, by full content otherwise (spec section 4.2). -/
def filesEqual (by_content : Bool) (m₁ : Nat) (c₁ : String) (m₂ : Nat) (c₂ : String) : Bool :=
  if by_content then c₁ == c₂ else m₁ == m₂

/-- Common regular files whose comparison reports a difference
(`compared.diff_files`). -/
def diff_files (by_content : Bool) (src dest : Entries) : List String :=
  (commonNames src dest).filter (fun n =>
    match lookupE src n, lookupE dest n with
    | some (.file _ m₁ c₁), some (.file _ m₂ c₂) => !filesEqual by_content m₁ c₁ m₂ c₂
    | _, _ => false)

/-- Common names of mismatched or irregular type (`compared.common_funny`):
everything common that is neither a directory pair, nor a regular-file pair,
nor a symlink pair. -/
def common_funny (src dest : Entries) : List String :=
  (commonNames src dest).filter (fun n =>
    match lookupE src n, lookupE dest n with
    | some (.dir _ _), some (.dir _ _) => false
    | some (.file _ _ _), some (.file _ _ _) => false
    | some (.symlink _ _), some (.symlink _ _) => false
    | _, _ => true)

/-! ## Engine configuration, state, logs, and errors -/

/-- The configuration fields stored by `Synchronizer.__init__`
(src/sync.py lines 72-86).  `source_inos` is the inode registry pre-seed:
the identity of the source root and of every ancestor directory of the
source root, each mapped to its path (lines 72-75). -/
structure SyncCfg where
  source : FPath
  dest : FPath
  follow_symlinks : Bool
  dryrun : Bool
  by_content : Bool
  stop_on_errors : Bool
  one_shot : Bool
  interval : Nat
  source_inos : List (Nat × FPath)
deriving DecidableEq, Repr

/-- Python exceptions that the engine's bodies can raise. -/
inductive PyErr where
  /-- `NameError: name 'item' is not defined` — the warning f-string at
  src/sync.py line 202 references `item`, which is not in scope in
  `copy_tree`. -/
  | nameError
  /-- `TypeError: rmtree() got an unexpected keyword argument
  'follow_symlinks'` — `shutil.rmtree` accepts no such parameter
  (src/sync.py lines 231 and 240). -/
  | typeErrorRmtree
  /-- `FileExistsError` from `dest.mkdir(parents=True)` (line 222), which
  passes no `exist_ok` and is executed once per copied file. -/
  | fileExistsError (p : FPath)
  /-- The explicit `raise Exception("SHOULD NOT HAPPEN: ...")` statements at
  lines 124, 149 and 246. -/
  | shouldNotHappen (p : FPath)
  /-- `shutil.Error` raised by `shutil.copytree` when an irregular object is
  found inside the bulk-copied subtree. -/
  | copyError
  /-- Any other `OSError` (missing entry, not a directory, ...). -/
  | osError (p : FPath)
deriving DecidableEq, Repr

/-- One emitted log record, one constructor per logging call site of the
engine (messages abbreviated to their identifying call site and the paths
they mention). -/
inductive LogMsg where
  | startingSync                               -- line 260
  | warnFunny (p : FPath)                      -- lines 93, 219
  | warnSeen (p prev : FPath)                  -- lines 99, 206
  | dryrunNotDeleting (p : FPath)              -- line 112
  | deletingSymlink (p : FPath)                -- line 115
  | deletingDir (p : FPath)                    -- line 118
  | deletingFile (p : FPath)                   -- line 121
  | dryrunNotCopying (name : String)           -- line 136 (formats the bare name)
  | copyingSymlink (p : FPath)                 -- line 139
  | copyingTree (p : FPath)                    -- line 142
  | copyingFile (p : FPath)                    -- line 146
  | dryrunNotReplacing (dst src : FPath)       -- lines 161, 187
  | warnCannotReplaceIgnored (dst src : FPath) -- lines 164, 190
  | replacingWithTree (dst src : FPath)        -- line 167
  | removing (p : FPath)                       -- lines 229, 238
  | copyingTo (src dst : FPath)                -- lines 234, 243
  | errorContinuing (p : FPath) (e : PyErr)    -- lines 108, 130, 155, 181, 198
  | errorExiting (p : FPath) (e : PyErr)       -- lines 105, 127, 152, 178, 195
deriving DecidableEq, Repr

/-- The engine's mutable per-object state: the inode registry
`self.seen_inos` (identity to first path observed), the pass-accumulated
`self.ignore_list`, and the log emitted so far. -/
structure St where
  seen : List (Nat × FPath)
  ignore : List FPath
  logs : List LogMsg
deriving DecidableEq, Repr

/-- Append one log record. -/
def St.log (st : St) (m : LogMsg) : St :=
  { st with logs := st.logs ++ [m] }

/-- Dictionary lookup in the inode registry. -/
def seenLookup : List (Nat × FPath) → Nat → Option FPath
  | [], _ => none
  | (i, p) :: l, j => if i = j then some p else seenLookup l j

/-- `dict.__ior__` (`self.seen_inos |= self.source_inos`, line 261): entries
of the right dictionary win. -/
def mergeSeen (a b : List (Nat × FPath)) : List (Nat × FPath) :=
  a.filter (fun e => (seenLookup b e.1).isNone) ++ b

/-- Outcomes that escape `sync_dirs` altogether: `sys.exit(code)` raises
`SystemExit`, which is not an `Exception` and therefore propagates through
every `except Exception` clause; `fuel` is the model's explicit
out-of-fuel marker. -/
inductive SyncErr where
  | exited (code : Nat) (st : St)
  | fuel
deriving DecidableEq, Repr

/-! ## Copy primitives -/

/-- `Path.readlink()`: the raw, unresolved link target. -/
def readlink (p : FPath) : FSNode → Except PyErr FPath
  | .symlink _ t => .ok t
  | _ => .error (.osError p)

/-- `shutil.copy2(source, dest)` on a regular file: content and metadata
signature are preserved, the destination object is fresh. -/
def copy2 (p : FPath) : FSNode → Except PyErr FSNode
  | .file _ m c => .ok (.file 0 m c)
  | _ => .error (.osError p)

mutual

/-- `shutil.copytree(source, dest, symlinks=True)` as invoked with
`follow_symlinks=false` (src/sync.py lines 144, 173, 216): a recursive
structural copy with fresh identities in which symlinks are copied literally
(no target rewriting — `copy_symlink` is not involved in bulk copies).  An
irregular object anywhere below makes the bulk copy raise (`shutil.Error`). -/
def copytreeNode : FSNode → Except PyErr FSNode
  | .file _ m c => .ok (.file 0 m c)
  | .symlink _ t => .ok (.symlink 0 t)
  | .funny _ => .error .copyError
  | .dir _ es =>
    match copytreeEntries es with
    | .ok es' => .ok (.dir 0 es')
    | .error e => .error e

/-- Children of a bulk-copied directory, in listing order. -/
def copytreeEntries : List (String × FSNode) → Except PyErr (List (String × FSNode))
  | [] => .ok []
  | (n, v) :: l =>
    match copytreeNode v with
    | .error e => .error e
    | .ok v' =>
      match copytreeEntries l with
      | .error e => .error e
      | .ok l' => .ok ((n, v') :: l')

end

/-- Removal of an existing destination before an individual copy
(`Synchronizer.copy_file`, src/sync.py lines 228-233 and 237-242).
`destNode` is the object currently at the destination path (`none` when
`dest.exists()` is false; a destination symlink is assumed non-dangling, so
its presence makes `dest.exists()` true, and `dest.is_dir()` is false on a
symlink since targets are not resolved).  When the destination is a
directory, line 231/240 calls `shutil.rmtree(dest,
follow_symlinks=self.follow_symlinks)`; `rmtree` accepts no
`follow_symlinks` keyword, so the call raises `TypeError` and nothing is
removed. -/
def removeDest (destP : FPath) : Option FSNode → St → Except (PyErr × St) St
  | none, st => .ok st
  | some d, st =>
    let st := st.log (.removing destP)
    if d.is_dir true then .error (.typeErrorRmtree, st)
    else .ok st

/-- `Synchronizer.copy_file` (src/sync.py lines 226-246): copy one symlink
(rewriting its target via `copy_symlink`) or one regular file to the
destination, removing whatever is there first.  Returns the object created
at the destination. -/
def copy_file (cfg : SyncCfg) (srcNode : FSNode) (srcP destP : FPath)
    (destNode : Option FSNode) (st : St) : Except (PyErr × St) (FSNode × St) :=
  if !cfg.follow_symlinks && srcNode.is_symlink then
    match removeDest destP destNode st with
    | .error e => .error e
    | .ok st =>
      let st := st.log (.copyingTo srcP destP)
      match readlink srcP srcNode with
      | .error e => .error (e, st)
      | .ok t => .ok (.symlink 0 (copy_symlink_target cfg.source cfg.dest t), st)
  else if srcNode.is_file true then
    match removeDest destP destNode st with
    | .error e => .error e
    | .ok st =>
      let st := st.log (.copyingTo srcP destP)
      match copy2 srcP srcNode with
      | .error e => .error (e, st)
      | .ok node => .ok (node, st)
  else
    .error (.shouldNotHappen srcP, st)   -- line 246

/-! ## Cycle-safe tree copier -/

/-- The verdict collected for one child subdirectory during the probe of
`copy_tree` (the `results` dictionary, src/sync.py line 210), together with
the destination subtree the child's own fallback already created (`none`
when the child created nothing). -/
structure ChildProbe where
  name : String
  node : FSNode
  safe : Bool
  built : Option FSNode

/-- Bulk-copy phase of the manual reconstruction (src/sync.py lines
214-216), interleaved with the destination subtrees that unsafe children
already wrote during the probe: each safe child is bulk-copied, each unsafe
child keeps whatever its own fallback created, and unsafe children that
created nothing are left uncopied. -/
def fallback_children : List ChildProbe → Except PyErr Entries
  | [] => .ok []
  | r :: l =>
    match fallback_children l with
    | .error e => .error e
    | .ok rest =>
      if r.safe then
        match copytreeNode r.node with
        | .error e => .error e
        | .ok ct => .ok ((r.name, ct) :: rest)
      else
        match r.built with
        | some b => .ok ((r.name, b) :: rest)
        | none => .ok rest

/-- File phase of the manual reconstruction (src/sync.py lines 217-224):
every direct child that is a symlink or regular file is copied individually.
`destEx` records whether the destination directory exists; line 222 runs
`dest.mkdir(parents=True)` once per copied file with no `exist_ok`, so the
call raises `FileExistsError` whenever the directory already exists —
in particular on the second file, or on the first file after a bulk-copied
child created the directory. -/
def fallback_files (cfg : SyncCfg) (srcPath destPath : FPath) :
    List (String × FSNode) → Bool → Entries → St → Except (PyErr × St) (Entries × St)
  | [], _, acc, st => .ok (acc, st)
  | (n, child) :: l, destEx, acc, st =>
    if is_funny cfg.follow_symlinks child then
      fallback_files cfg srcPath destPath l destEx acc
        (st.log (.warnFunny (srcPath.join n)))
    else if (!cfg.follow_symlinks && child.is_symlink) || child.is_file cfg.follow_symlinks then
      if destEx then .error (.fileExistsError destPath, st)
      else
        match copy_file cfg child (srcPath.join n) (destPath.join n) none st with
        | .error e => .error e
        | .ok (node, st) => fallback_files cfg srcPath destPath l true (insertE acc n node) st
    else
      fallback_files cfg srcPath destPath l destEx acc st

mutual

/-- `Synchronizer.copy_tree` (src/sync.py lines 200-224).  Probe the subtree
for safety (registering identities), report `true` without copying when
every child verdict is true (the caller then bulk-copies), and otherwise
perform the manual reconstruction and report `false`.  Returns the safety
verdict and the destination subtree created (`none` when nothing was
created), threading the registry and the log.  Note line 202: the warning
for an irregular source formats the undefined name `item`, so that branch
raises `NameError` instead of logging and returning false. -/
def copy_tree (cfg : SyncCfg) : FSNode → FPath → FPath → St →
    Except (PyErr × St) (Bool × Option FSNode × St)
  | src, srcPath, destPath, st =>
    if is_funny cfg.follow_symlinks src then
      .error (.nameError, st)
    else
      match seenLookup st.seen (src.statIno true) with
      | some prev => .ok (false, none, st.log (.warnSeen srcPath prev))
      | none =>
        let st := { st with seen := st.seen ++ [(src.statIno true, srcPath)] }
        match src with
        | .dir _ es =>
          match copy_tree_children cfg es srcPath destPath st with
          | .error e => .error e
          | .ok (results, st) =>
            if results.all (fun r => r.safe) then
              .ok (true, none, st)
            else
              let destEx := results.any (fun r => r.safe || r.built.isSome)
              match fallback_children results with
              | .error e => .error (e, st)
              | .ok base =>
                match fallback_files cfg srcPath destPath es destEx base st with
                | .error e => .error e
                | .ok (acc, st) => .ok (false, some (.dir 0 acc), st)
        | _ => .error (.osError srcPath, st)   -- iterdir on a non-directory

/-- The probe comprehension of src/sync.py line 210: recursively invoke
`copy_tree` on every child subdirectory, collecting a verdict per child. -/
def copy_tree_children (cfg : SyncCfg) : List (String × FSNode) → FPath → FPath → St →
    Except (PyErr × St) (List ChildProbe × St)
  | [], _, _, st => .ok ([], st)
  | (n, child) :: l, srcPath, destPath, st =>
    if child.is_dir cfg.follow_symlinks then
      match copy_tree cfg child (srcPath.join n) (destPath.join n) st with
      | .error e => .error e
      | .ok (safe, built, st) =>
        match copy_tree_children cfg l srcPath destPath st with
        | .error e => .error e
        | .ok (rest, st) => .ok (⟨n, child, safe, built⟩ :: rest, st)
    else
      copy_tree_children cfg l srcPath destPath st

end

/-! ## Reconciliation engine -/

/-- The shared `except Exception` clause of every per-entry loop of
`sync_dirs` (e.g. src/sync.py lines 125-130): with `stop_on_errors` the
error is logged and the process terminates via `sys.exit(1)`; otherwise the
error is logged and the loop continues with the state the body had reached
when it raised. -/
def handleErr (cfg : SyncCfg) (p : FPath) (e : PyErr) (st : St) :
    Except SyncErr St :=
  if cfg.stop_on_errors then .error (.exited 1 (st.log (.errorExiting p e)))
  else .ok (st.log (.errorContinuing p e))

/-- Deletion loop over `compared.right_only` (src/sync.py lines 109-130):
destination-only entries not in the ignore list are deleted — a symlink is
unlinked without following it, a directory subtree is removed recursively
(`shutil.rmtree`, line 119, called without the bogus keyword), a regular
file is unlinked; dry-run suppresses the deletion but logs it. -/
def delete_loop (cfg : SyncCfg) (destPath : FPath) :
    List String → Entries → St → Except SyncErr (Entries × St)
  | [], dest, st => .ok (dest, st)
  | n :: rest, dest, st =>
    if destPath.join n ∈ st.ignore then
      delete_loop cfg destPath rest dest st
    else
      let item := destPath.join n
      let body : Except (PyErr × St) (Entries × St) :=
        if cfg.dryrun then .ok (dest, st.log (.dryrunNotDeleting item))
        else
          match lookupE dest n with
          | none => .error (.osError item, st)
          | some node =>
            if !cfg.follow_symlinks && node.is_symlink then
              .ok (removeE dest n, st.log (.deletingSymlink item))
            else if node.is_dir cfg.follow_symlinks then
              .ok (removeE dest n, st.log (.deletingDir item))
            else if node.is_file true then
              .ok (removeE dest n, st.log (.deletingFile item))
            else
              .error (.shouldNotHappen item, st)   -- line 124
      match body with
      | .ok (dest, st) => delete_loop cfg destPath rest dest st
      | .error (e, stE) =>
        match handleErr cfg item e stE with
        | .error z => .error z
        | .ok st => delete_loop cfg destPath rest dest st

/-- Copy loop over `compared.left_only` (src/sync.py lines 131-155):
source-only entries not in the ignore list are copied — a symlink via
`copy_symlink`, a directory via the `copy_tree` probe followed by a bulk
`shutil.copytree` when safe, a regular file via `shutil.copy2`; dry-run
suppresses the copy but logs it (formatting the bare entry name). -/
def copy_loop (cfg : SyncCfg) (srcPath destPath : FPath) (src : Entries) :
    List String → Entries → St → Except SyncErr (Entries × St)
  | [], dest, st => .ok (dest, st)
  | n :: rest, dest, st =>
    if srcPath.join n ∈ st.ignore then
      copy_loop cfg srcPath destPath src rest dest st
    else
      let sp := srcPath.join n
      let dp := destPath.join n
      let body : Except (PyErr × St) (Entries × St) :=
        if cfg.dryrun then .ok (dest, st.log (.dryrunNotCopying n))
        else
          match lookupE src n with
          | none => .error (.osError sp, st)
          | some node =>
            if !cfg.follow_symlinks && node.is_symlink then
              let st := st.log (.copyingSymlink sp)
              match readlink sp node with
              | .error e => .error (e, st)
              | .ok t =>
                .ok (insertE dest n (.symlink 0 (copy_symlink_target cfg.source cfg.dest t)), st)
            else if node.is_dir cfg.follow_symlinks then
              let st := st.log (.copyingTree sp)
              match copy_tree cfg node sp dp st with
              | .error e => .error e
              | .ok (safe, built, st) =>
                if safe then
                  match copytreeNode node with
                  | .error e => .error (e, st)
                  | .ok ct => .ok (insertE dest n ct, st)
                else
                  match built with
                  | some b => .ok (insertE dest n b, st)
                  | none => .ok (dest, st)
            else if node.is_file cfg.follow_symlinks then
              let st := st.log (.copyingFile sp)
              match copy2 sp node with
              | .error e => .error (e, st)
              | .ok c => .ok (insertE dest n c, st)
            else
              .error (.shouldNotHappen sp, st)   -- line 149
      match body with
      | .ok (dest, st) => copy_loop cfg srcPath destPath src rest dest st
      | .error (e, stE) =>
        match handleErr cfg sp e stE with
        | .error z => .error z
        | .ok st => copy_loop cfg srcPath destPath src rest dest st

/-- Replace loop over `compared.common_funny` (src/sync.py lines 156-181):
common entries of mismatched or irregular type are replaced with the source
side — unless the destination path is itself in the ignore list, in which
case the replace is refused with a warning.  A source directory first has
the destination removed (recursively if a directory) and is then copied via
`copy_tree`/`copytree`; any other source object goes through `copy_file`. -/
def funny_replace_loop (cfg : SyncCfg) (srcPath destPath : FPath) (src : Entries) :
    List String → Entries → St → Except SyncErr (Entries × St)
  | [], dest, st => .ok (dest, st)
  | n :: rest, dest, st =>
    if srcPath.join n ∈ st.ignore then
      funny_replace_loop cfg srcPath destPath src rest dest st
    else
      let sp := srcPath.join n
      let dp := destPath.join n
      let body : Except (PyErr × St) (Entries × St) :=
        if cfg.dryrun then .ok (dest, st.log (.dryrunNotReplacing dp sp))
        else if dp ∈ st.ignore then .ok (dest, st.log (.warnCannotReplaceIgnored dp sp))
        else
          match lookupE src n with
          | none => .error (.osError sp, st)
          | some s =>
            if s.is_dir cfg.follow_symlinks then
              let st := st.log (.replacingWithTree dp sp)
              match lookupE dest n with
              | none => .error (.osError dp, st)
              | some d =>
                -- lines 168-171: `shutil.rmtree` when the destination is a
                -- directory (line 169, without the bogus keyword), `unlink`
                -- otherwise; either way the entry is removed
                let dest := if d.is_dir cfg.follow_symlinks then removeE dest n else removeE dest n
                match copy_tree cfg s sp dp st with
                | .error e => .error e
                | .ok (safe, built, st) =>
                  if safe then
                    match copytreeNode s with
                    | .error e => .error (e, st)
                    | .ok ct => .ok (insertE dest n ct, st)
                  else
                    match built with
                    | some b => .ok (insertE dest n b, st)
                    | none => .ok (dest, st)
            else
              match copy_file cfg s sp dp (lookupE dest n) st with
              | .error e => .error e
              | .ok (node, st) => .ok (updateE dest n node, st)
      match body with
      | .ok (dest, st) => funny_replace_loop cfg srcPath destPath src rest dest st
      | .error (e, stE) =>
        match handleErr cfg sp e stE with
        | .error z => .error z
        | .ok st => funny_replace_loop cfg srcPath destPath src rest dest st

/-- Replace loop over `compared.diff_files` (src/sync.py lines 182-198):
common regular files reported different are replaced via `copy_file` —
unless the destination path is in the ignore list, in which case the
replace is refused with a warning; dry-run suppresses the replace but logs
it. -/
def diff_loop (cfg : SyncCfg) (srcPath destPath : FPath) (src : Entries) :
    List String → Entries → St → Except SyncErr (Entries × St)
  | [], dest, st => .ok (dest, st)
  | n :: rest, dest, st =>
    if srcPath.join n ∈ st.ignore then
      diff_loop cfg srcPath destPath src rest dest st
    else
      let sp := srcPath.join n
      let dp := destPath.join n
      let body : Except (PyErr × St) (Entries × St) :=
        if cfg.dryrun then .ok (dest, st.log (.dryrunNotReplacing dp sp))
        else if dp ∈ st.ignore then .ok (dest, st.log (.warnCannotReplaceIgnored dp sp))
        else
          match lookupE src n with
          | none => .error (.osError sp, st)
          | some s =>
            match copy_file cfg s sp dp (lookupE dest n) st with
            | .error e => .error e
            | .ok (node, st) => .ok (updateE dest n node, st)
      match body with
      | .ok (dest, st) => diff_loop cfg srcPath destPath src rest dest st
      | .error (e, stE) =>
        match handleErr cfg sp e stE with
        | .error z => .error z
        | .ok st => diff_loop cfg srcPath destPath src rest dest st

/-- Recursion loop over `compared.subdirs` (src/sync.py lines 94-108): for
every common subdirectory not in the ignore list, look up the source
child's identity in the registry; if already seen, skip with a warning,
otherwise register it and recurse (`recur` is `sync_dirs` at the remaining
fuel).  `sys.exit` from a nested error escalation propagates. -/
def subdirs_loop (cfg : SyncCfg)
    (recur : FPath → FPath → Entries → Entries → St → Except SyncErr (Entries × St))
    (srcPath destPath : FPath) (src : Entries) :
    List String → Entries → St → Except SyncErr (Entries × St)
  | [], dest, st => .ok (dest, st)
  | n :: rest, dest, st =>
    if srcPath.join n ∈ st.ignore then
      subdirs_loop cfg recur srcPath destPath src rest dest st
    else
      match lookupE src n, lookupE dest n with
      | some sNode, some dNode =>
        let ino := sNode.statIno cfg.follow_symlinks   -- line 97
        match seenLookup st.seen ino with
        | some prev =>
          subdirs_loop cfg recur srcPath destPath src rest dest
            (st.log (.warnSeen (srcPath.join n) prev))
        | none =>
          let st := { st with seen := st.seen ++ [(ino, srcPath.join n)] }
          match sNode, dNode with
          | .dir _ sEs, .dir dIno dEs =>
            match recur (srcPath.join n) (destPath.join n) sEs dEs st with
            | .error z => .error z
            | .ok (dEs', st) =>
              subdirs_loop cfg recur srcPath destPath src rest
                (updateE dest n (.dir dIno dEs')) st
          | _, _ =>
            -- unreachable: `compared.subdirs` pairs directories only
            match handleErr cfg (srcPath.join n) (.osError (srcPath.join n)) st with
            | .error z => .error z
            | .ok st => subdirs_loop cfg recur srcPath destPath src rest dest st
      | _, _ =>
        match handleErr cfg (srcPath.join n) (.osError (srcPath.join n)) st with
        | .error z => .error z
        | .ok st => subdirs_loop cfg recur srcPath destPath src rest dest st

/-- The paths of the entries from either listing that classify Irregular
(src/sync.py lines 89-90: `items_to_check` filtered by `is_funny`), source
side first. -/
def funnyItemsOf (cfg : SyncCfg) (srcPath destPath : FPath) (src dest : Entries) :
    List FPath :=
  ((src.filter (fun e => is_funny cfg.follow_symlinks e.2)).map (fun e => srcPath.join e.1)) ++
  ((dest.filter (fun e => is_funny cfg.follow_symlinks e.2)).map (fun e => destPath.join e.1))

/-- Lines 91-93: the irregular entries join the pass-wide ignore list and
each is warned about. -/
def funnyPhase (cfg : SyncCfg) (srcPath destPath : FPath) (src dest : Entries)
    (st : St) : St :=
  { st with ignore := st.ignore ++ funnyItemsOf cfg srcPath destPath src dest,
            logs := st.logs ++ (funnyItemsOf cfg srcPath destPath src dest).map LogMsg.warnFunny }

/-- `Synchronizer.sync_dirs` (src/sync.py lines 88-198), one level of the
recursive dispatcher, driven by an explicit fuel for the recursion into
common subdirectories.  Irregular entries from either listing join the
pass-wide ignore list with a warning (lines 89-93); then the five loops run
in source order: recursion into common subdirectories, deletions, copies,
mismatched-type replaces, and differing-file replaces.  Returns the new
contents of the destination directory. -/
def sync_dirs (cfg : SyncCfg) :
    Nat → FPath → FPath → Entries → Entries → St → Except SyncErr (Entries × St)
  | 0, _, _, _, _, _ => .error .fuel
  | fuel + 1, srcPath, destPath, src, dest, st =>
    match subdirs_loop cfg (sync_dirs cfg fuel) srcPath destPath src
        (common_dirs src dest) dest (funnyPhase cfg srcPath destPath src dest st) with
    | .error z => .error z
    | .ok p₁ =>
      match delete_loop cfg destPath (right_only src dest) p₁.1 p₁.2 with
      | .error z => .error z
      | .ok p₂ =>
        match copy_loop cfg srcPath destPath src (left_only src dest) p₂.1 p₂.2 with
        | .error z => .error z
        | .ok p₃ =>
          match funny_replace_loop cfg srcPath destPath src (common_funny src dest) p₃.1 p₃.2 with
          | .error z => .error z
          | .ok p₄ =>
            diff_loop cfg srcPath destPath src
              (diff_files cfg.by_content src dest) p₄.1 p₄.2

/-- The registry seeding performed at the start of each pass body
(src/sync.py line 261): `self.seen_inos |= self.source_inos`. -/
def seedSeen (cfg : SyncCfg) (st : St) : St :=
  { st with seen := mergeSeen st.seen cfg.source_inos }

/-- One iteration of the `while True` loop of `Synchronizer.run`
(src/sync.py lines 258-275), scheduling aside: log the pass start, merge the
pre-seeded source identities into the registry (line 261), run `sync_dirs`
on a fresh comparison of the roots, and clear the registry (line 270).
`sys.exit` propagates (SystemExit is not an `Exception`); no other
exception escapes `sync_dirs` in this model, so the `except` clause at
lines 264-269 is not exercised. -/
def run_step (cfg : SyncCfg) (fuel : Nat) (src dest : Entries) (st : St) :
    Except SyncErr (Entries × St) :=
  match sync_dirs cfg fuel cfg.source cfg.dest src dest
      (seedSeen cfg (st.log .startingSync)) with
  | .error z => .error z
  | .ok p => .ok (p.1, { p.2 with seen := [] })

/-- `k` consecutive passes of `Synchronizer.run` over an unchanged source
tree (the inter-pass sleep, lines 271-275, has no filesystem effect and is
not modelled). -/
def run_passes (cfg : SyncCfg) (fuel : Nat) (src : Entries) :
    Nat → Entries → St → Except SyncErr (Entries × St)
  | 0, dest, st => .ok (dest, st)
  | k + 1, dest, st =>
    match run_step cfg fuel src dest st with
    | .error z => .error z
    | .ok p => run_passes cfg fuel src k p.1 p.2

/-- The state fields a fresh `Synchronizer` starts with (src/sync.py lines
76-77): empty ignore list, empty registry, nothing logged yet. -/
def initSt : St := ⟨[], [], []⟩

/-! ## Construction defaults -/

/-- The keyword parameters of `Synchronizer.__init__` with their declared
defaults (src/sync.py line 11): `interval=600`, `follow_symlinks=True`,
`dryrun=True`, `by_content=False`, `stop_on_errors=False`, `one_shot=False`;
`source`, `dest` and `logfile` are required. -/
structure InitParams where
  source : String
  dest : String
  logfile : String
  interval : Nat := 600
  follow_symlinks : Bool := true
  dryrun : Bool := true
  by_content : Bool := false
  stop_on_errors : Bool := false
  one_shot : Bool := false
deriving DecidableEq, Repr

/-- A `Synchronizer` constructed with only the required arguments — every
keyword parameter, `dryrun` included, left at its declared default. -/
def defaultInit : InitParams :=
  { source := "SOURCE", dest := "DEST", logfile := "log" }

/-! ## Error policy of the per-entry loops -/

/-- Observable outcome per entry for the error-policy analysis. -/
inductive ActLog where
  | copied (n : String)
  | errorCont (n : String)
  | errorExit (n : String)
deriving DecidableEq, Repr

/-- The `source_only` copy loop (src/sync.py lines 131-155) with the I/O
outcome of each entry's traversal/copy action abstracted by an oracle:
`fails n` says whether processing entry `n` raises (unreadable entry,
failed copy, ...).  The `except` clause (lines 150-155) is modelled
exactly: on a failure, `stop_on_errors=true` logs and terminates the
process via `sys.exit(1)` — nothing after the failing entry runs — while
`stop_on_errors=false` logs at error level and continues with the next
entry. -/
def copy_loop_oracle (stop : Bool) (fails : String → Bool) :
    List String → List ActLog → List ActLog × Option Nat
  | [], acc => (acc, none)
  | n :: rest, acc =>
    if fails n then
      if stop then (acc ++ [.errorExit n], some 1)
      else copy_loop_oracle stop fails rest (acc ++ [.errorCont n])
    else
      copy_loop_oracle stop fails rest (acc ++ [.copied n])

/-! ## Cycle guard over symlinked directory graphs

`filecmp.dircmp` pairs common subdirectories with `os.path.isdir`, which
follows symlinks, and builds the nested comparison lazily; a symlink to a
directory therefore enters the recursion of `sync_dirs` (src/sync.py lines
94-102) even when `follow_symlinks=false`, and only the inode registry
bounds that recursion.  The tree-shaped model above cannot represent the
resulting cyclic graphs, so cycle safety is analysed on a graph-shaped
filesystem with the comparator's pairing fused into the loop. -/

/-- A directory entry of the graph-shaped filesystem: a file, a plain
subdirectory with its identity, or a symlink carrying its own (`lstat`)
identity and the identity of the directory its target resolves to — for a
cyclic symlink, an ancestor of the link itself. -/
inductive GEnt where
  | gfile
  | gdir (ino : Nat)
  | glink (linkIno : Nat) (targetIno : Nat)
deriving DecidableEq, Repr

/-- Graph filesystem: directory identity to listing. -/
abbrev GFS := List (Nat × List (String × GEnt))

/-- The listing of a directory identity (empty when unknown). -/
def gListing (fs : GFS) (i : Nat) : List (String × GEnt) :=
  match fs with
  | [] => []
  | (j, es) :: l => if j = i then es else gListing l i

/-- Name lookup in a graph listing. -/
def lookupG : List (String × GEnt) → String → Option GEnt
  | [], _ => none
  | (m, e) :: l, n => if m = n then some e else lookupG l n

/-- `os.path.isdir` as used by the comparator to pair common
subdirectories: follows symlinks, so a symlink to a directory counts. -/
def GEnt.isDirLike : GEnt → Bool
  | .gfile => false
  | _ => true

/-- `dir_path.stat(follow_symlinks=False).st_ino` (src/sync.py line 97 with
`follow_symlinks=false`): a directory's own identity, or the symlink's own
identity (the target is not resolved). -/
def GEnt.lstatIno : GEnt → Option Nat
  | .gfile => none
  | .gdir i => some i
  | .glink l _ => some l

/-- The directory whose listing a recursion into the entry traverses (the
listing follows symlinks). -/
def GEnt.resolvedIno : GEnt → Option Nat
  | .gfile => none
  | .gdir i => some i
  | .glink _ t => some t

/-- The cycle-guard warning of src/sync.py line 99, recorded with the path
of the skipped occurrence. -/
inductive GLog where
  | skipSeen (path : List String)
deriving DecidableEq, Repr

/-- One level of the `compared.subdirs` loop (src/sync.py lines 94-102)
over the graph filesystem: for every name common to both listings whose two
sides are directory-like under the comparator's symlink-following test, take
the source side's `lstat` identity; if the registry has seen it, skip with
the warning, otherwise register it (line 101) and recurse into the resolved
listings.  `recur` is the whole-loop recursion at the remaining fuel. -/
def gsync_list (fs : GFS)
    (recur : Nat → Nat → List String → List Nat → Option (List Nat × List GLog))
    (destEnts : List (String × GEnt)) :
    List (String × GEnt) → List String → List Nat → List GLog →
    Option (List Nat × List GLog)
  | [], _, seen, logs => some (seen, logs)
  | (n, e) :: rest, path, seen, logs =>
    match lookupG destEnts n with
    | none => gsync_list fs recur destEnts rest path seen logs
    | some d =>
      if e.isDirLike && d.isDirLike then
        match e.lstatIno, e.resolvedIno, d.resolvedIno with
        | some ino, some stgt, some dtgt =>
          if ino ∈ seen then
            gsync_list fs recur destEnts rest path seen (logs ++ [.skipSeen (path ++ [n])])
          else
            match recur stgt dtgt (path ++ [n]) (seen ++ [ino]) with
            | none => none
            | some (seen', clogs) =>
              gsync_list fs recur destEnts rest path seen' (logs ++ clogs)
        | _, _, _ => gsync_list fs recur destEnts rest path seen logs
      else
        gsync_list fs recur destEnts rest path seen logs

/-- The recursive subdirectory traversal of one pass, rooted at a pair of
directory identities, with an explicit fuel bounding the recursion depth.
An entry is processed exactly when its `lstat` identity is appended to the
registry. -/
def gsync (fs : GFS) : Nat → Nat → Nat → List String → List Nat →
    Option (List Nat × List GLog)
  | 0, _, _, _, _ => none
  | fuel + 1, srcIno, destIno, path, seen =>
    gsync_list fs (gsync fs fuel) (gListing fs destIno) (gListing fs srcIno) path seen []

/-- The `lstat` identity of an entry, when it has one, lies in `U`. -/
def entClosed (U : Finset Nat) (e : GEnt) : Bool :=
  match e.lstatIno with
  | none => true
  | some j => decide (j ∈ U)

/-- Every `lstat` identity mentioned by the filesystem lies in `U`. -/
def GClosed (fs : GFS) (U : Finset Nat) : Prop :=
  ∀ p ∈ fs, ∀ q ∈ p.2, entClosed U q.2 = true

/-- The concrete cyclic instance: the source root (identity 1) holds a plain
subdirectory `sub` (identity 2) and a symlink `cyc` (own identity 10) whose
target is the source root — an ancestor directory of the link.  The
destination root (identity 101) mirrors it. -/
def cycFS : GFS :=
  [ (1, [("sub", .gdir 2), ("cyc", .glink 10 1)]),
    (2, []),
    (101, [("sub", .gdir 102), ("cyc", .glink 110 101)]),
    (102, []) ]

/-! ## Concrete instances -/

/-- A concrete configuration: source root `/src` (identity 1), destination
root `/dst`, `follow_symlinks=false`, `dry_run=false`,
`compare_by_content=true`, `stop_on_errors=false`, `one_shot=true`. -/
def cfgA : SyncCfg :=
  ⟨⟨true, ["src"]⟩, ⟨true, ["dst"]⟩, false, false, true, false, true, 600,
    [(1, ⟨true, ["src"]⟩)]⟩

/-- The same configuration with `dry_run=true`. -/
def cfgDry : SyncCfg :=
  ⟨⟨true, ["src"]⟩, ⟨true, ["dst"]⟩, false, true, true, false, true, 600,
    [(1, ⟨true, ["src"]⟩)]⟩

/-- The same configuration with `stop_on_errors=true`. -/
def cfgStop : SyncCfg :=
  ⟨⟨true, ["src"]⟩, ⟨true, ["dst"]⟩, false, false, true, true, true, 600,
    [(1, ⟨true, ["src"]⟩)]⟩

/-- C1's failing input, source side: one regular file `x`. -/
def srcMismatch : Entries := [("x", .file 10 0 "hello")]

/-- C1's failing input, destination side: a directory named `x`. -/
def destMismatch : Entries := [("x", .dir 20 [])]

/-- C4's failing input: a source directory `/src/d` holding one subdirectory
`u` whose identity (5) the registry has already seen — an unsafe child —
and two direct regular files `f1`, `f2`. -/
def srcTwoFiles : FSNode :=
  .dir 2 [("u", .dir 5 []), ("f1", .file 11 0 "a"), ("f2", .file 12 0 "b")]

/-- Registry state in which identity 5 was already observed at `/x`. -/
def stSeen5 : St := ⟨[(1, ⟨true, ["src"]⟩), (5, ⟨true, ["x"]⟩)], [], []⟩

/-- C2's source tree: an irregular entry (a socket, say) next to a regular
file. -/
def srcWithFunny : Entries := [("sock", .funny 30), ("a", .file 31 0 "c")]

/-! # Verified properties -/

/-- C6: for every symlink whose raw (unresolved) target is an absolute path
under the source root, `copy_symlink` creates at the destination a link whose
target has the source-root prefix swapped for the destination root; for every
other symlink (relative target, or absolute target outside the source root)
the link is copied with its target unchanged. -/
theorem c6_symlink_rewrite (sourceRoot destRoot t : FPath)
    (hs : sourceRoot.absolute = true) :
    (t.absolute = true → sourceRoot.parts <+: t.parts →
      copy_symlink_target sourceRoot destRoot t =
        ⟨destRoot.absolute, destRoot.parts ++ t.parts.drop sourceRoot.parts.length⟩) ∧
    (¬ (t.absolute = true ∧ sourceRoot.parts <+: t.parts) →
      copy_symlink_target sourceRoot destRoot t = t) := by
  constructor
  · intro habs hpre
    simp only [copy_symlink_target, FPath.isRelTo, FPath.relPartsTo, habs, hs,
      Bool.and_eq_true, beq_iff_eq, List.isPrefixOf_iff_prefix]
    simp [hpre]
  · intro hnot
    simp only [copy_symlink_target, FPath.isRelTo, FPath.relPartsTo,
      Bool.and_eq_true, beq_iff_eq, List.isPrefixOf_iff_prefix]
    rw [if_neg]
    rintro ⟨habs, -, hpre⟩
    exact hnot ⟨habs, hpre⟩

/-- Witness for C6 at concrete inputs: the source-internal absolute link
target `/src/sub/b` is rewritten to `/dst/sub/b`, while the external
absolute target `/etc/hosts` is preserved unchanged. -/
theorem c6_symlink_rewrite_witness :
    copy_symlink_target ⟨true, ["src"]⟩ ⟨true, ["dst"]⟩ ⟨true, ["src", "sub", "b"]⟩ =
        ⟨true, ["dst", "sub", "b"]⟩ ∧
    copy_symlink_target ⟨true, ["src"]⟩ ⟨true, ["dst"]⟩ ⟨true, ["etc", "hosts"]⟩ =
        ⟨true, ["etc", "hosts"]⟩ := by
  constructor
  · exact (c6_symlink_rewrite ⟨true, ["src"]⟩ ⟨true, ["dst"]⟩
      ⟨true, ["src", "sub", "b"]⟩ rfl).1 rfl (by decide)
  · exact (c6_symlink_rewrite ⟨true, ["src"]⟩ ⟨true, ["dst"]⟩
      ⟨true, ["etc", "hosts"]⟩ rfl).2 (by decide)

/-- Rewriting a name to the object it already holds is the identity. -/
theorem updateE_self : ∀ (l : Entries) (n : String) (v : FSNode),
    lookupE l n = some v → updateE l n v = l := by
  intro l n v
  induction l with
  | nil => intro h; cases h
  | cons e rest ih =>
    intro h
    obtain ⟨m, w⟩ := e
    by_cases hm : m = n
    · simp only [lookupE, if_pos hm, Option.some.injEq] at h
      simp [updateE, hm, h]
    · simp only [lookupE, if_neg hm] at h
      simp [updateE, hm, ih h]

/-- In a dry run the deletion loop deletes nothing: it returns the
destination unchanged and logs one suppression entry per non-ignored item. -/
theorem delete_loop_dry (cfg : SyncCfg) (hdry : cfg.dryrun = true) (destPath : FPath) :
    ∀ (items : List String) (dest : Entries) (st : St),
      delete_loop cfg destPath items dest st =
        .ok (dest, { st with logs := st.logs ++
                              (items.filter (fun n => decide (destPath.join n ∉ st.ignore))).map
                                (fun n => LogMsg.dryrunNotDeleting (destPath.join n)) }) := by
  intro items
  induction items with
  | nil => intro dest st; simp [delete_loop]
  | cons n rest ih =>
    intro dest st
    by_cases hmem : destPath.join n ∈ st.ignore
    · simp only [delete_loop, if_pos hmem, ih, List.filter_cons]
      simp [hmem]
    · simp only [delete_loop, if_neg hmem, hdry, if_true, ih, St.log, List.filter_cons]
      simp [hmem, List.append_assoc]

/-- In a dry run the copy loop copies nothing: it returns the destination
unchanged and logs one suppression entry (with the bare entry name, as line
136 does) per non-ignored item. -/
theorem copy_loop_dry (cfg : SyncCfg) (hdry : cfg.dryrun = true)
    (srcPath destPath : FPath) (src : Entries) :
    ∀ (items : List String) (dest : Entries) (st : St),
      copy_loop cfg srcPath destPath src items dest st =
        .ok (dest, { st with logs := st.logs ++
                              (items.filter (fun n => decide (srcPath.join n ∉ st.ignore))).map
                                (fun n => LogMsg.dryrunNotCopying n) }) := by
  intro items
  induction items with
  | nil => intro dest st; simp [copy_loop]
  | cons n rest ih =>
    intro dest st
    by_cases hmem : srcPath.join n ∈ st.ignore
    · simp only [copy_loop, if_pos hmem, ih, List.filter_cons]
      simp [hmem]
    · simp only [copy_loop, if_neg hmem, hdry, if_true, ih, St.log, List.filter_cons]
      simp [hmem, List.append_assoc]

/-- In a dry run the mismatched-type replace loop replaces nothing: it
returns the destination unchanged and logs one suppression entry per
non-ignored item (the destination-side ignore check at line 163 is never
reached, the dry-run check precedes it). -/
theorem funny_replace_loop_dry (cfg : SyncCfg) (hdry : cfg.dryrun = true)
    (srcPath destPath : FPath) (src : Entries) :
    ∀ (items : List String) (dest : Entries) (st : St),
      funny_replace_loop cfg srcPath destPath src items dest st =
        .ok (dest, { st with logs := st.logs ++
                              (items.filter (fun n => decide (srcPath.join n ∉ st.ignore))).map
                                (fun n => LogMsg.dryrunNotReplacing (destPath.join n) (srcPath.join n)) }) := by
  intro items
  induction items with
  | nil => intro dest st; simp [funny_replace_loop]
  | cons n rest ih =>
    intro dest st
    by_cases hmem : srcPath.join n ∈ st.ignore
    · simp only [funny_replace_loop, if_pos hmem, ih, List.filter_cons]
      simp [hmem]
    · simp only [funny_replace_loop, if_neg hmem, hdry, if_true, ih, St.log, List.filter_cons]
      simp [hmem, List.append_assoc]

/-- In a dry run the differing-file replace loop replaces nothing: it
returns the destination unchanged and logs one suppression entry per
non-ignored item. -/
theorem diff_loop_dry (cfg : SyncCfg) (hdry : cfg.dryrun = true)
    (srcPath destPath : FPath) (src : Entries) :
    ∀ (items : List String) (dest : Entries) (st : St),
      diff_loop cfg srcPath destPath src items dest st =
        .ok (dest, { st with logs := st.logs ++
                              (items.filter (fun n => decide (srcPath.join n ∉ st.ignore))).map
                                (fun n => LogMsg.dryrunNotReplacing (destPath.join n) (srcPath.join n)) }) := by
  intro items
  induction items with
  | nil => intro dest st; simp [diff_loop]
  | cons n rest ih =>
    intro dest st
    by_cases hmem : srcPath.join n ∈ st.ignore
    · simp only [diff_loop, if_pos hmem, ih, List.filter_cons]
      simp [hmem]
    · simp only [diff_loop, if_neg hmem, hdry, if_true, ih, St.log, List.filter_cons]
      simp [hmem, List.append_assoc]

/-- If the recursion preserves the destination listing it is handed (as the
dry-run recursion does), then the subdirectory loop returns the destination
unchanged; the log and the ignore list are only ever extended. -/
theorem subdirs_loop_preserve (cfg : SyncCfg)
    (recur : FPath → FPath → Entries → Entries → St → Except SyncErr (Entries × St))
    (hrec : ∀ sp dp se de st d' s', recur sp dp se de st = .ok (d', s') →
        d' = de ∧ st.logs <+: s'.logs ∧ st.ignore <+: s'.ignore)
    (srcPath destPath : FPath) (src : Entries) :
    ∀ (items : List String) (dest : Entries) (st : St) (d' : Entries) (s' : St),
      subdirs_loop cfg recur srcPath destPath src items dest st = .ok (d', s') →
      d' = dest ∧ st.logs <+: s'.logs ∧ st.ignore <+: s'.ignore := by
  intro items
  induction items with
  | nil =>
    intro dest st d' s' h
    unfold subdirs_loop at h
    cases h
    exact ⟨rfl, List.prefix_refl _, List.prefix_refl _⟩
  | cons n rest ih =>
    intro dest st d' s' h
    unfold subdirs_loop at h
    split at h
    · exact ih _ _ _ _ h
    · split at h
      · -- both lookups succeeded
        split at h
        · -- directory pair
          dsimp only at h
          split at h
          · -- identity already seen: warned and skipped
            obtain ⟨h1, h2, h3⟩ := ih _ _ _ _ h
            exact ⟨h1, (st.logs.prefix_append _).trans h2, h3⟩
          · -- fresh identity: registered and recursed into
            split at h
            · cases h
            · obtain ⟨hr1, hr2, hr3⟩ := hrec _ _ _ _ _ _ _ (by assumption)
              obtain ⟨h1, h2, h3⟩ := ih _ _ _ _ h
              refine ⟨?_, hr2.trans h2, hr3.trans h3⟩
              rw [h1, hr1]
              exact updateE_self dest n _ (by assumption)
        · -- mismatched shapes: per-entry error handling
          dsimp only at h
          split at h
          · -- identity already seen: warned and skipped
            obtain ⟨h1, h2, h3⟩ := ih _ _ _ _ h
            exact ⟨h1, (st.logs.prefix_append _).trans h2, h3⟩
          · -- error handler outcome
            split at h
            · cases h
            · rename_i stX heq
              unfold handleErr at heq
              split at heq
              · cases heq
              · cases heq
                obtain ⟨h1, h2, h3⟩ := ih _ _ _ _ h
                exact ⟨h1, (st.logs.prefix_append _).trans h2, h3⟩
      · -- a lookup failed: per-entry error handling
        split at h
        · cases h
        · rename_i stX heq
          unfold handleErr at heq
          split at heq
          · cases heq
          · cases heq
            obtain ⟨h1, h2, h3⟩ := ih _ _ _ _ h
            exact ⟨h1, (st.logs.prefix_append _).trans h2, h3⟩

/-- A list is a prefix of itself followed by four more blocks. -/
theorem prefix_appends {α : Type} (l A B C D : List α) :
    l <+: (((l ++ A) ++ B) ++ C) ++ D :=
  (((l.prefix_append A).trans ((l ++ A).prefix_append B)).trans
    (((l ++ A) ++ B).prefix_append C)).trans ((((l ++ A) ++ B) ++ C).prefix_append D)

/-- In a dry run `sync_dirs` leaves the destination untouched at every
level; the log and the ignore list are only ever extended. -/
theorem sync_dirs_dry_invariant (cfg : SyncCfg) (hdry : cfg.dryrun = true) :
    ∀ (fuel : Nat) (srcPath destPath : FPath) (src dest : Entries) (st : St)
      (d' : Entries) (s' : St),
      sync_dirs cfg fuel srcPath destPath src dest st = .ok (d', s') →
      d' = dest ∧ st.logs <+: s'.logs ∧ st.ignore <+: s'.ignore := by
  intro fuel
  induction fuel with
  | zero =>
    intro sp dp src dest st d' s' h
    unfold sync_dirs at h
    cases h
  | succ fuel ih =>
    intro sp dp src dest st d' s' h
    unfold sync_dirs at h
    split at h
    · cases h
    · rename_i p₁ hsub
      obtain ⟨h1, h2, h3⟩ := subdirs_loop_preserve cfg (sync_dirs cfg fuel) ih
        sp dp src _ _ _ _ _ hsub
      simp only [delete_loop_dry cfg hdry dp, copy_loop_dry cfg hdry sp dp src,
        funny_replace_loop_dry cfg hdry sp dp src, diff_loop_dry cfg hdry sp dp src] at h
      cases h
      refine ⟨h1, ?_, ?_⟩
      · exact ((st.logs.prefix_append _).trans h2).trans (prefix_appends _ _ _ _ _)
      · exact (st.ignore.prefix_append _).trans h3

/-- C3: dry-run non-mutation.  For every pass level executed with
`dry_run=true` that returns, the destination listing is unchanged, and for
every entry that would have received an action — a destination-only
deletion, a source-only copy, a mismatched-type replace, or a
differing-file replace, in each case not suppressed by the ignore list — a
log entry recording the suppressed action is emitted. -/
theorem c3_dry_run_non_mutation (cfg : SyncCfg) (fuel : Nat)
    (srcPath destPath : FPath) (src dest : Entries) (st : St)
    (d' : Entries) (s' : St) (hdry : cfg.dryrun = true)
    (h : sync_dirs cfg fuel srcPath destPath src dest st = .ok (d', s')) :
    d' = dest ∧
    (∀ n ∈ right_only src dest, destPath.join n ∉ s'.ignore →
      LogMsg.dryrunNotDeleting (destPath.join n) ∈ s'.logs) ∧
    (∀ n ∈ left_only src dest, srcPath.join n ∉ s'.ignore →
      LogMsg.dryrunNotCopying n ∈ s'.logs) ∧
    (∀ n ∈ common_funny src dest, srcPath.join n ∉ s'.ignore →
      LogMsg.dryrunNotReplacing (destPath.join n) (srcPath.join n) ∈ s'.logs) ∧
    (∀ n ∈ diff_files cfg.by_content src dest, srcPath.join n ∉ s'.ignore →
      LogMsg.dryrunNotReplacing (destPath.join n) (srcPath.join n) ∈ s'.logs) := by
  cases fuel with
  | zero => unfold sync_dirs at h; cases h
  | succ fuel =>
    unfold sync_dirs at h
    split at h
    · cases h
    · rename_i p₁ hsub
      obtain ⟨h1, -, -⟩ := subdirs_loop_preserve cfg (sync_dirs cfg fuel)
        (sync_dirs_dry_invariant cfg hdry fuel) srcPath destPath src _ _ _ _ _ hsub
      simp only [delete_loop_dry cfg hdry destPath,
        copy_loop_dry cfg hdry srcPath destPath src,
        funny_replace_loop_dry cfg hdry srcPath destPath src,
        diff_loop_dry cfg hdry srcPath destPath src] at h
      cases h
      refine ⟨h1, ?_, ?_, ?_, ?_⟩
      · intro n hn hnin
        simp only [List.mem_append, List.mem_map, List.mem_filter]
        refine Or.inl (Or.inl (Or.inl (Or.inr ⟨n, ⟨hn, ?_⟩, rfl⟩)))
        simpa using hnin
      · intro n hn hnin
        simp only [List.mem_append, List.mem_map, List.mem_filter]
        refine Or.inl (Or.inl (Or.inr ⟨n, ⟨hn, ?_⟩, rfl⟩))
        simpa using hnin
      · intro n hn hnin
        simp only [List.mem_append, List.mem_map, List.mem_filter]
        refine Or.inl (Or.inr ⟨n, ⟨hn, ?_⟩, rfl⟩)
        simpa using hnin
      · intro n hn hnin
        simp only [List.mem_append, List.mem_map, List.mem_filter]
        refine Or.inr ⟨n, ⟨hn, ?_⟩, rfl⟩
        simpa using hnin

/-- Witness for C3 at a concrete dry-run pass: source `{a}` against
destination `{b}` — the destination comes back unchanged and both the
suppressed deletion of `b` and the suppressed copy of `a` are logged. -/
theorem c3_dry_run_non_mutation_witness :
    LogMsg.dryrunNotDeleting ⟨true, ["dst", "b"]⟩ ∈
      (⟨[], [], [.dryrunNotDeleting ⟨true, ["dst", "b"]⟩, .dryrunNotCopying "a"]⟩ : St).logs ∧
    LogMsg.dryrunNotCopying "a" ∈
      (⟨[], [], [.dryrunNotDeleting ⟨true, ["dst", "b"]⟩, .dryrunNotCopying "a"]⟩ : St).logs ∧
    ([("b", FSNode.file 41 0 "t")] : Entries) = [("b", FSNode.file 41 0 "t")] := by
  have c := c3_dry_run_non_mutation cfgDry 2 ⟨true, ["src"]⟩ ⟨true, ["dst"]⟩
    [("a", .file 40 0 "s")] [("b", .file 41 0 "t")] initSt
    [("b", .file 41 0 "t")]
    ⟨[], [], [.dryrunNotDeleting ⟨true, ["dst", "b"]⟩, .dryrunNotCopying "a"]⟩
    rfl rfl
  exact ⟨c.2.1 "b" (by decide) (by decide), c.2.2.1 "a" (by decide) (by decide), c.1⟩

/-- C9 counterexample: a `Synchronizer` constructed with `dry_run` omitted
does not get `dry_run=false` — the declared default at src/sync.py line 11
is `dryrun=True`. -/
theorem c9_default_counterexample : ¬ (defaultInit.dryrun = false) := by decide

/-- C9 (amended): when the `dry_run` construction input is omitted it
defaults to `true`, so a `Synchronizer` constructed without specifying
`dry_run` performs a dry run — a pass run under the defaulted flag leaves
the destination unchanged — rather than real mutations. -/
theorem c9_dryrun_defaults_true :
    defaultInit.dryrun = true ∧
    ∀ (cfg : SyncCfg) (fuel : Nat) (srcPath destPath : FPath)
      (src dest : Entries) (st : St) (d' : Entries) (s' : St),
      cfg.dryrun = defaultInit.dryrun →
      sync_dirs cfg fuel srcPath destPath src dest st = .ok (d', s') →
      d' = dest := by
  refine ⟨rfl, ?_⟩
  intro cfg fuel srcPath destPath src dest st d' s' hd h
  exact (sync_dirs_dry_invariant cfg hd fuel srcPath destPath src dest st d' s' h).1

/-- Witness for C9: a pass under the defaulted `dry_run` flag over concrete
one-entry listings hands the destination back unchanged. -/
theorem c9_dryrun_defaults_true_witness :
    ([("b", FSNode.file 41 0 "t")] : Entries) = [("b", FSNode.file 41 0 "t")] :=
  c9_dryrun_defaults_true.2 cfgDry 2 ⟨true, ["src"]⟩ ⟨true, ["dst"]⟩
    [("a", .file 40 0 "s")] [("b", .file 41 0 "t")] initSt
    [("b", .file 41 0 "t")]
    ⟨[], [], [.dryrunNotDeleting ⟨true, ["dst", "b"]⟩, .dryrunNotCopying "a"]⟩
    rfl rfl

/-- `removeDest` never touches the ignore list and only appends to the log,
whether it succeeds or raises. -/
theorem removeDest_keeps (dp : FPath) (destNode : Option FSNode) (st : St) :
    (∀ s₁, removeDest dp destNode st = .ok s₁ →
      s₁.ignore = st.ignore ∧ st.logs <+: s₁.logs) ∧
    (∀ e s₁, removeDest dp destNode st = .error (e, s₁) →
      s₁.ignore = st.ignore ∧ st.logs <+: s₁.logs) := by
  cases destNode with
  | none =>
    constructor
    · intro s₁ h
      simp only [removeDest] at h
      cases h
      exact ⟨rfl, List.prefix_refl _⟩
    · intro e s₁ h
      simp only [removeDest] at h
      cases h
  | some d =>
    by_cases hd : d.is_dir true = true
    · constructor
      · intro s₁ h
        simp only [removeDest, if_pos hd] at h
        cases h
      · intro e s₁ h
        simp only [removeDest, if_pos hd] at h
        cases h
        exact ⟨rfl, st.logs.prefix_append _⟩
    · constructor
      · intro s₁ h
        simp only [removeDest, if_neg hd] at h
        cases h
        exact ⟨rfl, st.logs.prefix_append _⟩
      · intro e s₁ h
        simp only [removeDest, if_neg hd] at h
        cases h

/-- `copy_file` never touches the ignore list and only appends to the log,
whether it succeeds or raises. -/
theorem copy_file_keeps (cfg : SyncCfg) (srcNode : FSNode) (sp dp : FPath)
    (destNode : Option FSNode) (st : St) :
    (∀ v s₁, copy_file cfg srcNode sp dp destNode st = .ok (v, s₁) →
      s₁.ignore = st.ignore ∧ st.logs <+: s₁.logs) ∧
    (∀ e s₁, copy_file cfg srcNode sp dp destNode st = .error (e, s₁) →
      s₁.ignore = st.ignore ∧ st.logs <+: s₁.logs) := by
  by_cases hsym : (!cfg.follow_symlinks && srcNode.is_symlink) = true
  · cases hrm : removeDest dp destNode st with
    | error es =>
      obtain ⟨e₀, s₀⟩ := es
      constructor
      · intro v s₁ h
        simp only [copy_file, if_pos hsym, hrm] at h
        cases h
      · intro e s₁ h
        simp only [copy_file, if_pos hsym, hrm] at h
        cases h
        exact (removeDest_keeps dp destNode st).2 _ _ hrm
    | ok s₀ =>
      obtain ⟨hig, hlg⟩ := (removeDest_keeps dp destNode st).1 _ hrm
      cases hrl : readlink sp srcNode with
      | error e₁ =>
        constructor
        · intro v s₁ h
          simp only [copy_file, if_pos hsym, hrm, hrl] at h
          cases h
        · intro e s₁ h
          simp only [copy_file, if_pos hsym, hrm, hrl] at h
          cases h
          exact ⟨hig, hlg.trans (s₀.logs.prefix_append _)⟩
      | ok t =>
        constructor
        · intro v s₁ h
          simp only [copy_file, if_pos hsym, hrm, hrl] at h
          cases h
          exact ⟨hig, hlg.trans (s₀.logs.prefix_append _)⟩
        · intro e s₁ h
          simp only [copy_file, if_pos hsym, hrm, hrl] at h
          cases h
  · by_cases hf : srcNode.is_file true = true
    · cases hrm : removeDest dp destNode st with
      | error es =>
        obtain ⟨e₀, s₀⟩ := es
        constructor
        · intro v s₁ h
          simp only [copy_file, if_neg hsym, if_pos hf, hrm] at h
          cases h
        · intro e s₁ h
          simp only [copy_file, if_neg hsym, if_pos hf, hrm] at h
          cases h
          exact (removeDest_keeps dp destNode st).2 _ _ hrm
      | ok s₀ =>
        obtain ⟨hig, hlg⟩ := (removeDest_keeps dp destNode st).1 _ hrm
        cases hcp : copy2 sp srcNode with
        | error e₁ =>
          constructor
          · intro v s₁ h
            simp only [copy_file, if_neg hsym, if_pos hf, hrm, hcp] at h
            cases h
          · intro e s₁ h
            simp only [copy_file, if_neg hsym, if_pos hf, hrm, hcp] at h
            cases h
            exact ⟨hig, hlg.trans (s₀.logs.prefix_append _)⟩
        | ok node =>
          constructor
          · intro v s₁ h
            simp only [copy_file, if_neg hsym, if_pos hf, hrm, hcp] at h
            cases h
            exact ⟨hig, hlg.trans (s₀.logs.prefix_append _)⟩
          · intro e s₁ h
            simp only [copy_file, if_neg hsym, if_pos hf, hrm, hcp] at h
            cases h
    · constructor
      · intro v s₁ h
        simp only [copy_file, if_neg hsym, if_neg hf] at h
        cases h
      · intro e s₁ h
        simp only [copy_file, if_neg hsym, if_neg hf] at h
        cases h
        exact ⟨rfl, List.prefix_refl _⟩

/-- Rewriting one name leaves every other name's lookup unchanged. -/
theorem lookupE_updateE_ne (m n : String) (hmn : m ≠ n) :
    ∀ (l : Entries) (v : FSNode), lookupE (updateE l m v) n = lookupE l n := by
  intro l v
  induction l with
  | nil => rfl
  | cons e rest ih =>
    obtain ⟨k, w⟩ := e
    by_cases hk : k = m
    · subst hk
      simp only [updateE, if_pos rfl, lookupE, if_neg hmn]
    · simp only [updateE, if_neg hk, lookupE]
      by_cases hkn : k = n
      · simp [hkn]
      · simp [hkn, ih]

/-- The differing-file replace loop, on an entry whose destination path is
in the ignore list (and whose source path is not): the replace is refused —
a warning is logged and the destination entry is left untouched; the ignore
list itself is unchanged by the loop. -/
theorem diff_loop_ignored_dest (cfg : SyncCfg) (sp dp : FPath) (src : Entries)
    (n : String) (hdry : cfg.dryrun = false) :
    ∀ (items : List String) (dest : Entries) (st : St) (d' : Entries) (s' : St),
      diff_loop cfg sp dp src items dest st = .ok (d', s') →
      sp.join n ∉ st.ignore → dp.join n ∈ st.ignore →
      s'.ignore = st.ignore ∧ st.logs <+: s'.logs ∧
      lookupE d' n = lookupE dest n ∧
      (n ∈ items → LogMsg.warnCannotReplaceIgnored (dp.join n) (sp.join n) ∈ s'.logs) := by
  intro items
  induction items with
  | nil =>
    intro dest st d' s' h hsrc hdst
    unfold diff_loop at h
    cases h
    exact ⟨rfl, List.prefix_refl _, rfl, by simp⟩
  | cons m rest ih =>
    intro dest st d' s' h hsrc hdst
    unfold diff_loop at h
    dsimp only at h
    split at h
    · -- the source path of `m` is ignored: entry filtered out
      rename_i hfil
      obtain ⟨h1, h2, h3, h4⟩ := ih dest st d' s' h hsrc hdst
      refine ⟨h1, h2, h3, fun hmem => ?_⟩
      rcases List.mem_cons.1 hmem with hEq | hRest
      · subst hEq; exact absurd hfil hsrc
      · exact h4 hRest
    · rename_i hfil
      split at h
      · -- the per-entry body returned normally
        rename_i dest₂ st₂ heq
        split at heq
        · -- dry-run branch: excluded by the hypothesis
          rename_i hdm
          rw [hdry] at hdm
          cases hdm
        · split at heq
          · -- destination path ignored: replace refused with a warning
            rename_i hdm
            cases heq
            obtain ⟨h1, h2, h3, h4⟩ := ih dest _ d' s' h hsrc hdst
            refine ⟨h1, (st.logs.prefix_append _).trans h2, h3, fun hmem => ?_⟩
            rcases List.mem_cons.1 hmem with hEq | hRest
            · subst hEq
              exact h2.subset (by simp [St.log])
            · exact h4 hRest
          · rename_i hdm
            have hmn : m ≠ n := fun hEq => hdm (hEq ▸ hdst)
            split at heq
            · cases heq
            · rename_i s hls
              split at heq
              · cases heq
              · rename_i node st₁ hcf
                cases heq
                obtain ⟨hkig, hklg⟩ :=
                  (copy_file_keeps cfg s (sp.join m) (dp.join m) (lookupE dest m) st).1 _ _ hcf
                have hsrc' : sp.join n ∉ st₂.ignore := by rw [hkig]; exact hsrc
                have hdst' : dp.join n ∈ st₂.ignore := by rw [hkig]; exact hdst
                obtain ⟨h1, h2, h3, h4⟩ := ih (updateE dest m node) st₂ d' s' h hsrc' hdst'
                refine ⟨by rw [h1]; exact hkig, hklg.trans h2, ?_, fun hmem => ?_⟩
                · rw [h3]
                  exact lookupE_updateE_ne m n hmn dest node
                · rcases List.mem_cons.1 hmem with hEq | hRest
                  · exact absurd hEq hmn.symm
                  · exact h4 hRest
      · -- the per-entry body raised: handled per the error policy
        rename_i e₀ stE heq
        split at h
        · cases h
        · rename_i stX heq2
          unfold handleErr at heq2
          split at heq2
          · cases heq2
          · cases heq2
            split at heq
            · cases heq
            · split at heq
              · cases heq
              · rename_i hdm
                have hmn : m ≠ n := fun hEq => hdm (hEq ▸ hdst)
                split at heq
                · -- the source entry vanished: OSError with the state unchanged
                  cases heq
                  obtain ⟨h1, h2, h3, h4⟩ := ih dest _ d' s' h hsrc hdst
                  refine ⟨h1, (st.logs.prefix_append _).trans h2, h3, fun hmem => ?_⟩
                  rcases List.mem_cons.1 hmem with hEq | hRest
                  · exact absurd hEq hmn.symm
                  · exact h4 hRest
                · rename_i s hls
                  split at heq
                  · rename_i es hcf
                    cases heq
                    obtain ⟨hkig, hklg⟩ :=
                      (copy_file_keeps cfg s (sp.join m) (dp.join m) (lookupE dest m) st).2 _ _ hcf
                    have hsrc' : sp.join n ∉ stE.ignore := by rw [hkig]; exact hsrc
                    have hdst' : dp.join n ∈ stE.ignore := by rw [hkig]; exact hdst
                    obtain ⟨h1, h2, h3, h4⟩ := ih dest _ d' s' h hsrc' hdst'
                    refine ⟨by rw [h1]; exact hkig,
                      (hklg.trans (stE.logs.prefix_append _)).trans h2, h3, fun hmem => ?_⟩
                    rcases List.mem_cons.1 hmem with hEq | hRest
                    · exact absurd hEq hmn.symm
                    · exact h4 hRest
                  · rename_i p hcf
                    cases heq

/-- C10: for every `diff_files` entry whose destination path is in the
pass-wide IgnoreSet (and whose source path is not), the reconciliation
engine refuses the replace (src/sync.py lines 189-191): it logs a warning
and neither deletes the destination file nor copies the source file — the
destination entry is left exactly as it was. -/
theorem c10_diff_files_replace_refused (cfg : SyncCfg) (srcPath destPath : FPath)
    (src dest : Entries) (st : St) (d' : Entries) (s' : St) (n : String)
    (hdry : cfg.dryrun = false)
    (h : diff_loop cfg srcPath destPath src (diff_files cfg.by_content src dest)
      dest st = .ok (d', s'))
    (hn : n ∈ diff_files cfg.by_content src dest)
    (hsrc : srcPath.join n ∉ st.ignore) (hdst : destPath.join n ∈ st.ignore) :
    LogMsg.warnCannotReplaceIgnored (destPath.join n) (srcPath.join n) ∈ s'.logs ∧
    lookupE d' n = lookupE dest n := by
  obtain ⟨-, -, h3, h4⟩ := diff_loop_ignored_dest cfg srcPath destPath src n hdry
    (diff_files cfg.by_content src dest) dest st d' s' h hsrc hdst
  exact ⟨h4 hn, h3⟩

/-- Witness for C10: a concrete differing common file `x` whose destination
path is ignored — the loop returns with a logged refusal and the old
destination entry intact. -/
theorem c10_diff_files_replace_refused_witness :
    LogMsg.warnCannotReplaceIgnored ⟨true, ["dst", "x"]⟩ ⟨true, ["src", "x"]⟩ ∈
      (St.log ⟨[], [⟨true, ["dst", "x"]⟩], []⟩
        (.warnCannotReplaceIgnored ⟨true, ["dst", "x"]⟩ ⟨true, ["src", "x"]⟩)).logs ∧
    lookupE [("x", FSNode.file 2 1 "old")] "x" = lookupE [("x", FSNode.file 2 1 "old")] "x" :=
  c10_diff_files_replace_refused cfgA ⟨true, ["src"]⟩ ⟨true, ["dst"]⟩
    [("x", .file 1 0 "new")] [("x", .file 2 1 "old")]
    ⟨[], [⟨true, ["dst", "x"]⟩], []⟩ [("x", .file 2 1 "old")]
    (St.log ⟨[], [⟨true, ["dst", "x"]⟩], []⟩
      (.warnCannotReplaceIgnored ⟨true, ["dst", "x"]⟩ ⟨true, ["src", "x"]⟩))
    "x" rfl rfl (by decide) (by decide) (by decide)

/-- With `stop_on_errors=false`, the copy loop processes every entry in
order, logging an error-and-continue record per failing entry, and the
process never exits. -/
theorem copy_loop_oracle_no_stop (fails : String → Bool) :
    ∀ (items : List String) (acc : List ActLog),
      copy_loop_oracle false fails items acc =
        (acc ++ items.map (fun n => if fails n then ActLog.errorCont n else ActLog.copied n),
          none) := by
  intro items
  induction items with
  | nil => intro acc; simp [copy_loop_oracle]
  | cons n rest ih =>
    intro acc
    by_cases hf : fails n = true
    · simp [copy_loop_oracle, hf, ih, List.append_assoc]
    · simp [copy_loop_oracle, hf, ih, List.append_assoc]

/-- With `stop_on_errors=true`, the first failing entry is logged and the
process exits with status 1; nothing after it is processed. -/
theorem copy_loop_oracle_stops (fails : String → Bool) (bad : String)
    (hbad : fails bad = true) :
    ∀ (pre post : List String) (acc : List ActLog),
      (∀ m ∈ pre, fails m = false) →
      copy_loop_oracle true fails (pre ++ bad :: post) acc =
        (acc ++ pre.map ActLog.copied ++ [ActLog.errorExit bad], some 1) := by
  intro pre
  induction pre with
  | nil => intro post acc hpre; simp [copy_loop_oracle, hbad]
  | cons m rest ih =>
    intro post acc hpre
    have hm : fails m = false := hpre m (by simp)
    simp [copy_loop_oracle, hm, ih post _ (fun x hx => hpre x (by simp [hx])),
      List.append_assoc]

/-- Error-and-continue records are one per failing entry. -/
theorem copy_loop_oracle_err_count (fails : String → Bool) :
    ∀ items : List String,
      ((items.map (fun n => if fails n then ActLog.errorCont n else ActLog.copied n)).filter
        (fun l => match l with | .errorCont _ => true | _ => false)).length =
      (items.filter fails).length := by
  intro items
  induction items with
  | nil => rfl
  | cons n rest ih => by_cases hf : fails n = true <;> simp [hf, ih]

/-- C8: error policy of the per-entry loops (src/sync.py lines 150-155).
With `stop_on_errors=false`, every failing entry is logged at error level
(exactly one error record per failure), the loop continues with the next
entry, every non-failing entry is still processed, and the process does not
exit.  With `stop_on_errors=true`, the first failing entry is logged and
the process terminates with exit status 1, with no entry after the failing
one processed. -/
theorem c8_error_policy (fails : String → Bool) (items pre post : List String)
    (bad : String) (hpre : ∀ m ∈ pre, fails m = false) (hbad : fails bad = true) :
    ((copy_loop_oracle false fails items []).2 = none ∧
      (∀ n ∈ items, fails n = false →
        ActLog.copied n ∈ (copy_loop_oracle false fails items []).1) ∧
      ((copy_loop_oracle false fails items []).1.filter
          (fun l => match l with | .errorCont _ => true | _ => false)).length =
        (items.filter fails).length) ∧
    copy_loop_oracle true fails (pre ++ bad :: post) [] =
      (pre.map ActLog.copied ++ [ActLog.errorExit bad], some 1) := by
  refine ⟨⟨?_, ?_, ?_⟩, ?_⟩
  · rw [copy_loop_oracle_no_stop]
  · intro n hn hf
    rw [copy_loop_oracle_no_stop]
    simp only [List.nil_append, List.mem_map]
    exact ⟨n, hn, by simp [hf]⟩
  · rw [copy_loop_oracle_no_stop]
    simpa using copy_loop_oracle_err_count fails items
  · simpa using copy_loop_oracle_stops fails bad hbad pre post [] hpre

/-- Witness for C8 at a concrete failure oracle (`bad` is the unreadable
entry): no exit and all other entries copied with `stop_on_errors=false`;
exit status 1 right after the failure with `stop_on_errors=true`. -/
theorem c8_error_policy_witness :
    (copy_loop_oracle false (fun n => n == "bad") ["a", "bad", "c"] []).2 = none ∧
    copy_loop_oracle true (fun n => n == "bad") (["a"] ++ "bad" :: ["c"]) [] =
      (["a"].map ActLog.copied ++ [ActLog.errorExit "bad"], some 1) := by
  have h := c8_error_policy (fun n => n == "bad") ["a", "bad", "c"] ["a"] ["c"] "bad"
    (by decide) (by decide)
  exact ⟨h.1.1, h.2⟩

/-- The registry only grows along the subdirectory loop (list level). -/
theorem gsync_list_mono (fs : GFS)
    (recur : Nat → Nat → List String → List Nat → Option (List Nat × List GLog))
    (hrec : ∀ s d p sn r, recur s d p sn = some r → sn ⊆ r.1)
    (destEnts : List (String × GEnt)) :
    ∀ (ents : List (String × GEnt)) (path : List String) (seen : List Nat)
      (logs : List GLog) (r : List Nat × List GLog),
      gsync_list fs recur destEnts ents path seen logs = some r → seen ⊆ r.1 := by
  intro ents
  induction ents with
  | nil =>
    intro path seen logs r h
    unfold gsync_list at h
    cases h
    exact fun x hx => hx
  | cons q rest ih =>
    intro path seen logs r h
    obtain ⟨n, e⟩ := q
    unfold gsync_list at h
    split at h
    · exact ih _ _ _ _ h
    · split at h
      · split at h
        · split at h
          · exact ih _ _ _ _ h
          · split at h
            · cases h
            · rename_i hno p hr
              have h1 := hrec _ _ _ _ _ hr
              have h2 := ih _ _ _ _ h
              exact fun x hx => h2 (h1 (by simp [hx]))
        · exact ih _ _ _ _ h
      · exact ih _ _ _ _ h

/-- The registry only grows along the graph traversal. -/
theorem gsync_mono (fs : GFS) :
    ∀ (fuel srcIno destIno : Nat) (path : List String) (seen : List Nat)
      (r : List Nat × List GLog),
      gsync fs fuel srcIno destIno path seen = some r → seen ⊆ r.1 := by
  intro fuel
  induction fuel with
  | zero =>
    intro s d path seen r h
    unfold gsync at h
    cases h
  | succ fuel ih =>
    intro s d path seen r h
    unfold gsync at h
    exact gsync_list_mono fs (gsync fs fuel)
      (fun s d p sn r hh => ih s d p sn r hh) _ _ _ _ _ _ h

/-- Listings of a closed filesystem only mention closed entries. -/
theorem gListing_closed (U : Finset Nat) :
    ∀ (fs : GFS), GClosed fs U →
      ∀ (i : Nat) (q : String × GEnt), q ∈ gListing fs i → entClosed U q.2 = true := by
  intro fs
  induction fs with
  | nil =>
    intro hU i q hq
    simp [gListing] at hq
  | cons p rest ih =>
    intro hU i q hq
    obtain ⟨j, es⟩ := p
    unfold gListing at hq
    by_cases hji : j = i
    · rw [if_pos hji] at hq
      exact hU (j, es) (by simp) q hq
    · rw [if_neg hji] at hq
      exact ih (fun p hp q hq => hU p (List.mem_cons_of_mem _ hp) q hq) i q hq

/-- Growing the registry can only shrink the unseen part of `U`. -/
theorem unseen_card_le (U : Finset Nat) (a b : List Nat) (hab : a ⊆ b) :
    (U.filter (fun i => i ∉ b)).card ≤ (U.filter (fun i => i ∉ a)).card := by
  apply Finset.card_le_card
  intro x hx
  simp only [Finset.mem_filter] at hx ⊢
  exact ⟨hx.1, fun hxa => hx.2 (hab hxa)⟩

/-- Registering a fresh identity of `U` strictly shrinks the unseen part. -/
theorem unseen_card_lt (U : Finset Nat) (seen : List Nat) (ino : Nat)
    (hUm : ino ∈ U) (hseen : ino ∉ seen) :
    (U.filter (fun i => i ∉ seen ++ [ino])).card <
      (U.filter (fun i => i ∉ seen)).card := by
  apply Finset.card_lt_card
  rw [Finset.ssubset_def]
  constructor
  · intro x hx
    simp only [Finset.mem_filter, List.mem_append] at hx ⊢
    exact ⟨hx.1, fun hxa => hx.2 (Or.inl hxa)⟩
  · intro hsup
    have hm : ino ∈ U.filter (fun i => i ∉ seen) := by simp [hUm, hseen]
    have h2 := hsup hm
    simp [List.mem_append] at h2

/-- One level of the guarded traversal cannot run out of fuel when the fuel
exceeds the number of identities of `U` not yet registered (list level). -/
theorem gsync_list_total (fs : GFS) (U : Finset Nat) (fuel : Nat)
    (htot : ∀ (s d : Nat) (p : List String) (sn : List Nat),
      (U.filter (fun i => i ∉ sn)).card < fuel → gsync fs fuel s d p sn ≠ none)
    (destEnts : List (String × GEnt)) :
    ∀ (ents : List (String × GEnt)), (∀ q ∈ ents, entClosed U q.2 = true) →
      ∀ (path : List String) (seen : List Nat) (logs : List GLog),
      (U.filter (fun i => i ∉ seen)).card < fuel + 1 →
      gsync_list fs (gsync fs fuel) destEnts ents path seen logs ≠ none := by
  intro ents
  induction ents with
  | nil =>
    intro _ path seen logs _
    simp [gsync_list]
  | cons q rest ih =>
    intro hcl path seen logs hc
    obtain ⟨n, e⟩ := q
    have hclRest : ∀ q ∈ rest, entClosed U q.2 = true :=
      fun q hq => hcl q (List.mem_cons_of_mem _ hq)
    unfold gsync_list
    cases hd : lookupG destEnts n with
    | none =>
      simp only [hd]
      exact ih hclRest path seen logs hc
    | some d =>
      simp only [hd]
      by_cases hdir : (e.isDirLike && d.isDirLike) = true
      · rw [if_pos hdir]
        have he : ∀ (ino : Nat), e.lstatIno = some ino → ino ∈ U := by
          intro ino hino
          have := hcl (n, e) (by simp)
          unfold entClosed at this
          rw [hino] at this
          simpa using this
        cases e with
        | gfile => simp [GEnt.isDirLike] at hdir
        | gdir i =>
          cases d with
          | gfile => simp [GEnt.isDirLike] at hdir
          | gdir di =>
            by_cases hseen : i ∈ seen
            · simp only [GEnt.lstatIno, GEnt.resolvedIno, if_pos hseen]
              exact ih hclRest path seen _ hc
            · simp only [GEnt.lstatIno, GEnt.resolvedIno, if_neg hseen]
              have hiU : i ∈ U := he i rfl
              have hlt : (U.filter (fun x => x ∉ seen ++ [i])).card < fuel := by
                have := unseen_card_lt U seen i hiU hseen
                omega
              cases hr : gsync fs fuel i di (path ++ [n]) (seen ++ [i]) with
              | none => exact absurd hr (htot _ _ _ _ hlt)
              | some r =>
                have hsub := gsync_mono fs fuel i di (path ++ [n]) (seen ++ [i]) r hr
                have hle := unseen_card_le U (seen ++ [i]) r.1 hsub
                exact ih hclRest path r.1 _ (by omega)
          | glink dl dt =>
            by_cases hseen : i ∈ seen
            · simp only [GEnt.lstatIno, GEnt.resolvedIno, if_pos hseen]
              exact ih hclRest path seen _ hc
            · simp only [GEnt.lstatIno, GEnt.resolvedIno, if_neg hseen]
              have hiU : i ∈ U := he i rfl
              have hlt : (U.filter (fun x => x ∉ seen ++ [i])).card < fuel := by
                have := unseen_card_lt U seen i hiU hseen
                omega
              cases hr : gsync fs fuel i dt (path ++ [n]) (seen ++ [i]) with
              | none => exact absurd hr (htot _ _ _ _ hlt)
              | some r =>
                have hsub := gsync_mono fs fuel i dt (path ++ [n]) (seen ++ [i]) r hr
                have hle := unseen_card_le U (seen ++ [i]) r.1 hsub
                exact ih hclRest path r.1 _ (by omega)
        | glink l t =>
          cases d with
          | gfile => simp [GEnt.isDirLike] at hdir
          | gdir di =>
            by_cases hseen : l ∈ seen
            · simp only [GEnt.lstatIno, GEnt.resolvedIno, if_pos hseen]
              exact ih hclRest path seen _ hc
            · simp only [GEnt.lstatIno, GEnt.resolvedIno, if_neg hseen]
              have hlU : l ∈ U := he l rfl
              have hlt : (U.filter (fun x => x ∉ seen ++ [l])).card < fuel := by
                have := unseen_card_lt U seen l hlU hseen
                omega
              cases hr : gsync fs fuel t di (path ++ [n]) (seen ++ [l]) with
              | none => exact absurd hr (htot _ _ _ _ hlt)
              | some r =>
                have hsub := gsync_mono fs fuel t di (path ++ [n]) (seen ++ [l]) r hr
                have hle := unseen_card_le U (seen ++ [l]) r.1 hsub
                exact ih hclRest path r.1 _ (by omega)
          | glink dl dt =>
            by_cases hseen : l ∈ seen
            · simp only [GEnt.lstatIno, GEnt.resolvedIno, if_pos hseen]
              exact ih hclRest path seen _ hc
            · simp only [GEnt.lstatIno, GEnt.resolvedIno, if_neg hseen]
              have hlU : l ∈ U := he l rfl
              have hlt : (U.filter (fun x => x ∉ seen ++ [l])).card < fuel := by
                have := unseen_card_lt U seen l hlU hseen
                omega
              cases hr : gsync fs fuel t dt (path ++ [n]) (seen ++ [l]) with
              | none => exact absurd hr (htot _ _ _ _ hlt)
              | some r =>
                have hsub := gsync_mono fs fuel t dt (path ++ [n]) (seen ++ [l]) r hr
                have hle := unseen_card_le U (seen ++ [l]) r.1 hsub
                exact ih hclRest path r.1 _ (by omega)
      · rw [if_neg hdir]
        exact ih hclRest path seen logs hc

/-- The guarded traversal cannot run out of fuel when the fuel exceeds the
number of identities of `U` not yet registered: the registry bounds the
recursion depth, so every pass over a finite filesystem graph terminates. -/
theorem gsync_total (fs : GFS) (U : Finset Nat) (hU : GClosed fs U) :
    ∀ (fuel srcIno destIno : Nat) (path : List String) (seen : List Nat),
      (U.filter (fun i => i ∉ seen)).card < fuel →
      gsync fs fuel srcIno destIno path seen ≠ none := by
  intro fuel
  induction fuel with
  | zero =>
    intro _ _ _ _ hc
    exact absurd hc (Nat.not_lt_zero _)
  | succ fuel ih =>
    intro srcIno destIno path seen hc
    unfold gsync
    exact gsync_list_total fs U fuel ih (gListing fs destIno) (gListing fs srcIno)
      (fun q hq => gListing_closed U fs hU srcIno q hq) path seen [] hc

/-- C7: cycle safety.  (1) For every finite filesystem graph whose `lstat`
identities lie in a finite set `U` — in particular for every source tree
containing a symlink (with `follow_symlinks=false`) whose target is an
ancestor directory of itself — one pass terminates: with fuel exceeding the
number of not-yet-registered identities the guarded traversal never runs
out, because an entry only recurses after registering a fresh identity.
(2) On the concrete cyclic instance `cycFS` (source root holding `sub` and
the cyclic link `cyc -> root`), the pass completes, the cyclic entry is
eventually skipped with the logged warning (at `cyc/cyc`), and the sibling
`sub` is still processed: its identity 2 is registered in the final
registry. -/
theorem c7_cycle_safety :
    (∀ (fs : GFS) (U : Finset Nat) (srcIno destIno : Nat) (path : List String)
      (seen : List Nat) (fuel : Nat), GClosed fs U →
      (U.filter (fun i => i ∉ seen)).card < fuel →
      gsync fs fuel srcIno destIno path seen ≠ none) ∧
    gsync cycFS 3 1 101 [] [0, 1] =
      some ([0, 1, 2, 10], [.skipSeen ["cyc", "sub"], .skipSeen ["cyc", "cyc"]]) := by
  constructor
  · intro fs U s d path seen fuel hU hc
    exact gsync_total fs U hU fuel s d path seen hc
  · rfl

/-- Witness for C7: the cyclic instance's identities fit in a concrete
finite set, and the traversal with sufficient fuel does not run out. -/
theorem c7_cycle_safety_witness :
    GClosed cycFS ({2, 10, 102, 110} : Finset Nat) ∧
    gsync cycFS 6 1 101 [] [0, 1] ≠ none :=
  ⟨by unfold GClosed; decide,
    c7_cycle_safety.1 cycFS {2, 10, 102, 110} 1 101 [] [0, 1] 6
      (by unfold GClosed; decide) (by decide)⟩

/-- C5 (code bug): `copy_tree` called on a source path that classifies
Irregular does not log a warning and return false — the warning f-string at
src/sync.py line 202 references the name `item`, which is not defined in
`copy_tree`, so the call raises `NameError` (and performs no copy).  The
claim says the call returns normally; the code raises. -/
theorem c5_copy_tree_irregular_raises :
    copy_tree cfgA (.funny 7) (FPath.join ⟨true, ["src"]⟩ "s")
      (FPath.join ⟨true, ["dst"]⟩ "s") initSt = .error (.nameError, initSt) := rfl

/-- C4 (code bug): the manual reconstruction of `copy_tree` does not
complete for a source directory with two direct files.  On `srcTwoFiles`
(one unsafe child `u`, two files `f1`, `f2`) the fallback copies `f1` after
`dest.mkdir(parents=True)` creates the destination directory, and then the
second `mkdir` call for `f2` (line 222 — inside the file loop, without
`exist_ok`) raises `FileExistsError`; the claim says the reconstruction
completes without raising for any number of direct files. -/
theorem c4_fallback_mkdir_raises :
    copy_tree cfgA srcTwoFiles ⟨true, ["src", "d"]⟩ ⟨true, ["dst", "d"]⟩ stSeen5 =
      .error (.fileExistsError ⟨true, ["dst", "d"]⟩,
        ⟨[(1, ⟨true, ["src"]⟩), (5, ⟨true, ["x"]⟩), (2, ⟨true, ["src", "d"]⟩)], [],
         [.warnSeen ⟨true, ["src", "d", "u"]⟩ ⟨true, ["x"]⟩,
          .copyingTo ⟨true, ["src", "d", "f1"]⟩ ⟨true, ["dst", "d", "f1"]⟩]⟩) := rfl

/-- C1 (code bug): convergence fails on the acyclic one-file source tree
`srcMismatch` against the destination `destMismatch` (a directory of the
same name), even with `compare_by_content=true`.  The common name `x` is
routed to the mismatched-type replace, whose `copy_file` removes the
destination directory via `shutil.rmtree(dest,
follow_symlinks=self.follow_symlinks)` (line 240); `rmtree` accepts no such
keyword, so the call raises `TypeError`, the error is logged and the entry
skipped — after the pass the destination still holds the old directory `x`
instead of the source's regular file. -/
theorem c1_convergence_fails_on_type_mismatch :
    run_step cfgA 5 srcMismatch destMismatch initSt =
      .ok (destMismatch,
        ⟨[], [],
         [.startingSync, .removing ⟨true, ["dst", "x"]⟩,
          .errorContinuing ⟨true, ["src", "x"]⟩ .typeErrorRmtree]⟩) := rfl

/-- `run_step` always hands back a cleared registry (line 270). -/
theorem run_step_seen_cleared (cfg : SyncCfg) (fuel : Nat) (src dest : Entries)
    (st : St) (dest' : Entries) (st' : St)
    (h : run_step cfg fuel src dest st = .ok (dest', st')) : st'.seen = [] := by
  unfold run_step at h
  cases hs : sync_dirs cfg fuel cfg.source cfg.dest src dest
      (seedSeen cfg (st.log .startingSync)) with
  | error z => rw [hs] at h; cases h
  | ok p => rw [hs] at h; cases h; rfl

/-- After at least one completed pass, the registry is cleared. -/
theorem run_passes_succ_seen_cleared (cfg : SyncCfg) (fuel : Nat) (src : Entries) :
    ∀ (k : Nat) (dest : Entries) (st : St) (dest' : Entries) (st' : St),
      run_passes cfg fuel src (k + 1) dest st = .ok (dest', st') → st'.seen = [] := by
  intro k
  induction k with
  | zero =>
    intro dest st dest' st' h
    unfold run_passes at h
    cases hstep : run_step cfg fuel src dest st with
    | error z => rw [hstep] at h; cases h
    | ok p =>
      rw [hstep] at h
      unfold run_passes at h
      cases h
      exact run_step_seen_cleared cfg fuel src dest st p.1 p.2 hstep
  | succ k ih =>
    intro dest st dest' st' h
    unfold run_passes at h
    cases hstep : run_step cfg fuel src dest st with
    | error z => rw [hstep] at h; cases h
    | ok p => exact ih p.1 p.2 dest' st' (by rw [hstep] at h; exact h)

/-- C2 (amended): the InodeRegistry is pass-scoped — cleared at the end of
every pass (line 270), so the reseeding `self.seen_inos |= self.source_inos`
(line 261) makes the registry at the start of every pass exactly the
identities of the source root and its ancestor directories.  The IgnoreSet,
however, is created once in `__init__` (line 76) and never cleared: there is
no reset between passes, so the ignore list at the start of a pass is
exactly whatever the previous passes accumulated (it is empty only at the
first pass). -/
theorem c2_registry_reset_ignore_persists (cfg : SyncCfg) (fuel : Nat)
    (src : Entries) (k : Nat) (dest dest' : Entries) (st' : St)
    (h : run_passes cfg fuel src (k + 1) dest initSt = .ok (dest', st')) :
    (seedSeen cfg st').seen = cfg.source_inos ∧
    (seedSeen cfg st').ignore = st'.ignore ∧
    (seedSeen cfg initSt).seen = cfg.source_inos ∧ (seedSeen cfg initSt).ignore = [] := by
  refine ⟨?_, rfl, rfl, rfl⟩
  have hs := run_passes_succ_seen_cleared cfg fuel src k dest initSt dest' st' h
  show mergeSeen st'.seen cfg.source_inos = cfg.source_inos
  rw [hs]
  rfl

/-- C2 counterexample: after one pass over `srcWithFunny` (which contains an
irregular entry), the ignore list at the start of the next pass is not
empty — contradicting the claim that the IgnoreSet is empty at the start of
every top-level pass. -/
theorem c2_ignore_not_reset_counterexample :
    ¬ (∀ (dest' : Entries) (st' : St),
        run_passes cfgA 5 srcWithFunny 1 [] initSt = .ok (dest', st') →
        (seedSeen cfgA st').ignore = []) := by
  intro h
  have := h [("a", .file 0 0 "c")]
    ⟨[], [⟨true, ["src", "sock"]⟩],
     [.startingSync, .warnFunny ⟨true, ["src", "sock"]⟩,
      .copyingFile ⟨true, ["src", "a"]⟩]⟩ rfl
  exact absurd this (by decide)

/-- Witness for C2's amended statement: one concrete completed pass over
`srcWithFunny`, with the reseeded registry equal to the pre-seed and the
ignore list carried over unchanged into the next pass. -/
theorem c2_registry_reset_witness :
    (seedSeen cfgA ⟨[], [⟨true, ["src", "sock"]⟩],
        [.startingSync, .warnFunny ⟨true, ["src", "sock"]⟩,
         .copyingFile ⟨true, ["src", "a"]⟩]⟩).seen = cfgA.source_inos ∧
    (seedSeen cfgA ⟨[], [⟨true, ["src", "sock"]⟩],
        [.startingSync, .warnFunny ⟨true, ["src", "sock"]⟩,
         .copyingFile ⟨true, ["src", "a"]⟩]⟩).ignore = [⟨true, ["src", "sock"]⟩] := by
  have c := c2_registry_reset_ignore_persists cfgA 5 srcWithFunny 0 []
    [("a", .file 0 0 "c")]
    ⟨[], [⟨true, ["src", "sock"]⟩],
     [.startingSync, .warnFunny ⟨true, ["src", "sock"]⟩,
      .copyingFile ⟨true, ["src", "a"]⟩]⟩ rfl
  exact ⟨c.1, c.2.1⟩

end DirSync
